import Mathlib

/-!
Shallow embedding of the state-synchronization registry
(src/state/state.manager.ts, class StateManager) and of the Store contract
it manages. The StateManager definitions below follow the TypeScript source
line by line; the Store contract itself (state.utils) is not part of the
snapshot and is modelled from the specification.
-/

set_option autoImplicit false

namespace XpressCue

/-- Modelled from the spec: the value payloads carried by stores and by
inbound events (a state delta carries a full or partial value; a keyed read
selects one named sub-field of a composite value). The repository fixes no
concrete value domain, so a small closed universe of values is used, with
composite values as finite string-keyed records. -/
inductive Val where
  | int (n : Int)
  | str (s : String)
  | obj (fields : List (String × Int))
  | undef
deriving DecidableEq, Repr

/-- Modelled from the spec: reading the named sub-field of a composite
value; anything else yields the undefined value. -/
def Val.getField : Val → String → Val
  | .obj fields, k =>
    match fields.find? (fun p => p.1 == k) with
    | some p => .int p.2
    | none => .undef
  | _, _ => .undef

instance (ε α : Type) [DecidableEq ε] [DecidableEq α] : DecidableEq (Except ε α) := fun a b =>
  match a, b with
  | .ok x, .ok y =>
    if h : x = y then .isTrue (by rw [h]) else .isFalse (fun hc => h (Except.ok.inj hc))
  | .error x, .error y =>
    if h : x = y then .isTrue (by rw [h]) else .isFalse (fun hc => h (Except.error.inj hc))
  | .ok _, .error _ => .isFalse (fun hc => Except.noConfusion hc)
  | .error _, .ok _ => .isFalse (fun hc => Except.noConfusion hc)

/-- Modelled from the spec: the Store contract (the Store base class lives in
state.utils, which is not in the snapshot). A store keeps a current cached
value, a built-in default that reset restores, and the outcome its
asynchronous refresh would produce against the remote source: either the
pulled value or a failure. -/
structure Store where
  value : Val
  deflt : Val
  refreshResult : Except String Val
deriving DecidableEq, Repr

/-- Modelled from the spec: synchronous revert to the store-defined default,
with no network interaction. -/
def Store.reset (s : Store) : Store :=
  { s with value := s.deflt }

/-- Modelled from the spec: synchronous overwrite of the cached value, used
exclusively by the event router. -/
def Store.set (s : Store) (v : Val) : Store :=
  { s with value := v }

/-- Modelled from the spec: asynchronous pull of the current state from the
remote source; on success the cached value is updated, a failure propagates
to the caller. -/
def Store.refresh (s : Store) : Except String Store :=
  s.refreshResult.map (fun v => { s with value := v })

/-- Modelled from the spec: synchronous read of the current value, or of a
named sub-field when a key is supplied. -/
def Store.get (s : Store) (key : Option String) : Val :=
  match key with
  | none => s.value
  | some k => s.value.getField k

/-- An identifier accepted by the overloaded lookups of the manager: either
a plain store name, or a type-level identifier. A store type exposes its
canonical name statically (its STORE_CONFIG descriptor), which is all the
manager ever reads from it, so the type argument is represented by that
descriptor name. -/
inductive Ident where
  | byName (name : String)
  | byType (configName : String)
deriving DecidableEq, Repr

/-- getStoreNameByType: both overload paths converge to a plain name; a
type-level identifier resolves through its static STORE_CONFIG name. -/
def Ident.resolve : Ident → String
  | .byName n => n
  | .byType c => c

/-- One observable interaction of the manager with a store: invoking the
store refresh (the only remote interaction), a direct value overwrite, or a
revert to the default. -/
inductive Call where
  | storeRefresh (name : String)
  | storeSet (name : String) (v : Val)
  | storeReset (name : String)
deriving DecidableEq, Repr

/-- Only a store refresh performs a remote pull. -/
def Call.isRemote : Call → Bool
  | .storeRefresh _ => true
  | _ => false

/-- The StateManager state: the name-keyed repository of stores (a JS Map,
iterated in insertion order, here an association list in registry order)
and the shared cancellation subject: destroyed records whether the destroy
signal has been emitted and completed. -/
structure StateManager where
  stores : List (String × Store)
  destroyed : Bool
deriving DecidableEq, Repr

/-- The error message thrown by getStore for an unresolved identifier. -/
def notFoundMsg (name : String) : String :=
  "Store " ++ name ++ " does not exist!"

/-- hasStore: resolves the identifier to a name and checks membership in the
repository; total, never throws. -/
def StateManager.hasStore (m : StateManager) (i : Ident) : Bool :=
  (m.stores.find? (fun p => p.1 == i.resolve)).isSome

/-- getStore: resolves the identifier to a name; throws the NotFound error
naming the missing identifier when the name is not registered, otherwise
returns the registered store. -/
def StateManager.getStore (m : StateManager) (i : Ident) : Except String Store :=
  match m.stores.find? (fun p => p.1 == i.resolve) with
  | some p => .ok p.2
  | none => .error (notFoundMsg i.resolve)

/-- get: resolves the store via getStore (propagating NotFound) and reads
its current value, or the named sub-field when a key is supplied. -/
def StateManager.get (m : StateManager) (i : Ident) (key : Option String) : Except String Val :=
  (m.getStore i).map (fun s => s.get key)

/-- A handle describing a live select subscription: which store it watches
and the optional sub-field it is narrowed to. -/
structure Selection where
  storeName : String
  key : Option String
deriving DecidableEq, Repr

/-- select: resolves the store via getStore (propagating NotFound) and
returns the stream of value changes of that store, optionally narrowed to
one sub-field. The source pipes no cancellation into this stream: it simply
returns the stream obtained from the store. -/
def StateManager.select (m : StateManager) (i : Ident) (key : Option String) :
    Except String Selection :=
  (m.getStore i).map (fun _ => ⟨i.resolve, key⟩)

/-- Replacing the store registered under a name by a new store (the source
mutates the store instance held by the Map in place). -/
def updateStore (stores : List (String × Store)) (name : String) (s' : Store) :
    List (String × Store) :=
  stores.map (fun p => if p.1 == name then (p.1, s') else p)

/-- The bulk-refresh loop: awaits every store refresh one at a time in
registry order; a failure propagates out of the loop, leaving the failing
store and every store after it untouched. Returns the new repository, the
store interactions performed, and the propagated failure if any. -/
def refreshSeq : List (String × Store) → List (String × Store) × List Call × Option String
  | [] => ([], [], none)
  | (n, s) :: rest =>
    match s.refresh with
    | .error e => ((n, s) :: rest, [Call.storeRefresh n], some e)
    | .ok s' =>
      let r := refreshSeq rest
      ((n, s') :: r.1, Call.storeRefresh n :: r.2.1, r.2.2)

/-- refresh() (bulk overload): sequentially awaits every store refresh. -/
def StateManager.refreshAll (m : StateManager) : StateManager × List Call × Option String :=
  ({ m with stores := (refreshSeq m.stores).1 },
   (refreshSeq m.stores).2.1, (refreshSeq m.stores).2.2)

/-- refresh(storeName): resolves the store via getStore (propagating
NotFound) and awaits its refresh alone; a refresh failure propagates
unchanged to the caller. -/
def StateManager.refreshName (m : StateManager) (storeName : String) :
    StateManager × List Call × Option String :=
  match m.getStore (Ident.byName storeName) with
  | .error e => (m, [], some e)
  | .ok s =>
    match s.refresh with
    | .error e => (m, [Call.storeRefresh storeName], some e)
    | .ok s' =>
      ({ m with stores := updateStore m.stores storeName s' },
       [Call.storeRefresh storeName], none)

/-- reset(): synchronously calls reset on every store. -/
def StateManager.reset (m : StateManager) : StateManager × List Call :=
  ({ m with stores := m.stores.map (fun p => (p.1, p.2.reset)) },
   m.stores.map (fun p => Call.storeReset p.1))

/-- The private set(storeName, value): applies a value directly when the
name is registered and silently does nothing otherwise. -/
def StateManager.set (m : StateManager) (storeName : String) (v : Val) :
    StateManager × List Call :=
  match m.stores.find? (fun p => p.1 == storeName) with
  | some p =>
    ({ m with stores := updateStore m.stores storeName (p.2.set v) },
     [Call.storeSet storeName v])
  | none => (m, [])

/-- destroy(): resets all stores, then emits the shared cancellation signal
and marks it complete, which tears down the event subscriptions created at
initialization. -/
def StateManager.destroy (m : StateManager) : StateManager × List Call :=
  ({ (m.reset).1 with destroyed := true }, (m.reset).2)

/-- One externally triggered step of the manager: an inbound event on one of
the four subscribed channels, or a direct invocation of a public mutating
method by application code. -/
inductive Act where
  | evConnect
  | evState (name : String) (v : Val)
  | evReset (name : String) (v : Val)
  | evEntity (name : String)
  | callRefreshAll
  | callRefreshName (name : String)
  | callReset
  | callDestroy
deriving DecidableEq, Repr

/-- The inbound events, as opposed to direct public-method invocations. -/
def Act.isInbound : Act → Bool
  | .evConnect => true
  | .evState _ _ => true
  | .evReset _ _ => true
  | .evEntity _ => true
  | _ => false

/-- The transition function. Each of the four event subscriptions is piped
through takeUntil of the shared cancellation signal, so once destroyed an
inbound event reaches no handler; the state and reset channels are also
piped through the hasStore filter before calling set, and the entity channel
before calling refresh(name). Public method calls are not guarded by the
signal. Errors escaping an event handler (a rejected refresh) reach no
caller; errors of direct calls are returned to the caller and do not change
the transition result beyond what the method itself did. -/
def step (m : StateManager) : Act → StateManager × List Call
  | .evConnect =>
    if m.destroyed then (m, []) else ((m.refreshAll).1, (m.refreshAll).2.1)
  | .evState n v =>
    if m.destroyed then (m, []) else
      if m.hasStore (Ident.byName n) then m.set n v else (m, [])
  | .evReset n v =>
    if m.destroyed then (m, []) else
      if m.hasStore (Ident.byName n) then m.set n v else (m, [])
  | .evEntity n =>
    if m.destroyed then (m, []) else
      if m.hasStore (Ident.byName n) then ((m.refreshName n).1, (m.refreshName n).2.1)
      else (m, [])
  | .callRefreshAll => ((m.refreshAll).1, (m.refreshAll).2.1)
  | .callRefreshName n => ((m.refreshName n).1, (m.refreshName n).2.1)
  | .callReset => m.reset
  | .callDestroy => m.destroy

/-- The successive states reached while processing a list of acts. -/
def runStates (m : StateManager) : List Act → List StateManager
  | [] => []
  | a :: rest =>
    let m' := (step m a).1
    m' :: runStates m' rest

/-- The final state after processing a list of acts. -/
def runEnd (m : StateManager) (acts : List Act) : StateManager :=
  acts.foldl (fun m a => (step m a).1) m

/-- The current value of the store registered under a name, if any. -/
def valueOf (m : StateManager) (n : String) : Option Val :=
  (m.stores.find? (fun p => p.1 == n)).map (fun p => p.2.value)

/-- The value a subscription observes in a given state: the watched store's
current value, narrowed to the selected sub-field when a key was supplied. -/
def Selection.observe (sel : Selection) (m : StateManager) : Option Val :=
  (valueOf m sel.storeName).map (fun v =>
    match sel.key with
    | none => v
    | some k => v.getField k)

/-- The values emitted so far, read off a sequence of observed values: a
value is pushed to the subscriber each time the observed value changes. -/
def changesFrom : Option Val → List (Option Val) → List Val
  | _, [] => []
  | prev, cur :: rest =>
    match cur with
    | some x => if cur = prev then changesFrom cur rest else x :: changesFrom cur rest
    | none => changesFrom prev rest

/-- Modelled from the spec: the stream a select subscription delivers (the
store change-notification channel lives in state.utils, which is not in the
snapshot): starting from a state, over a list of acts, the subscriber
receives the watched value each time it changes. The manager attaches no
cancellation to this stream, so it is never torn down by the manager. -/
def selEmissions (sel : Selection) (m : StateManager) (acts : List Act) : List Val :=
  changesFrom (sel.observe m) ((runStates m acts).map (fun m' => sel.observe m'))

/-- The values a subscription created before destroy receives after destroy
has run: the trace is pre acts, then the destroy call, then post acts, and
only changes during the post segment are counted. -/
def postDestroyEmissions (sel : Selection) (m : StateManager)
    (pre post : List Act) : List Val :=
  selEmissions sel (runEnd m (pre ++ [Act.callDestroy])) post

/-- The store registered under a name, if any. -/
def findStore (l : List (String × Store)) (n : String) : Option Store :=
  (l.find? (fun p => p.1 == n)).map (fun p => p.2)

/-- The store after a successful refresh: the pulled value applied. -/
def Store.refreshApplied (s : Store) : Store :=
  match s.refreshResult with
  | .ok v => { s with value := v }
  | .error _ => s

/-- Calls that directly overwrite a store value. -/
def Call.isSet : Call → Bool
  | .storeSet _ _ => true
  | _ => false

/-- A concrete store holding a volume level. -/
def storeVolume : Store :=
  { value := .int 50, deflt := .int 0, refreshResult := .ok (.int 50) }

/-- A concrete store holding a playback status. -/
def storePlayback : Store :=
  { value := .str "stopped", deflt := .str "idle", refreshResult := .ok (.str "playing") }

/-- A concrete store whose remote pull fails. -/
def storeFailing : Store :=
  { value := .int 7, deflt := .int 0, refreshResult := .error "network down" }

/-- A concrete store whose remote pull yields a fresh value. -/
def storeA : Store :=
  { value := .int 0, deflt := .int 0, refreshResult := .ok (.int 1) }

/-- A concrete active manager with two healthy stores. -/
def mgrVP : StateManager :=
  { stores := [("volume", storeVolume), ("playback", storePlayback)], destroyed := false }

/-- A concrete active manager whose middle store fails to refresh. -/
def mgrVFP : StateManager :=
  { stores := [("volume", storeVolume), ("fail", storeFailing), ("playback", storePlayback)],
    destroyed := false }

/-- A concrete active manager with a single store. -/
def mgrA : StateManager :=
  { stores := [("a", storeA)], destroyed := false }

theorem valueOf_eq_findStore (m : StateManager) (n : String) :
    valueOf m n = (findStore m.stores n).map (fun s => s.value) := by
  simp only [valueOf, findStore, Option.map_map]
  rfl

theorem findStore_cons (k : String) (s : Store) (l : List (String × Store)) (n : String) :
    findStore ((k, s) :: l) n = if (k == n) = true then some s else findStore l n := by
  by_cases hk : (k == n) = true <;> simp [findStore, List.find?_cons, hk]

theorem updateStore_cons (k : String) (s : Store) (l : List (String × Store))
    (n : String) (s' : Store) :
    updateStore ((k, s) :: l) n s' =
      (if (k == n) = true then (k, s') else (k, s)) :: updateStore l n s' := rfl

theorem findStore_updateStore_ne (l : List (String × Store)) (n n' : String) (s' : Store)
    (h : n' ≠ n) :
    findStore (updateStore l n s') n' = findStore l n' := by
  induction l with
  | nil => rfl
  | cons p rest ih =>
    obtain ⟨k, s⟩ := p
    rw [updateStore_cons]
    by_cases hk : (k == n) = true
    · have hkn : k = n := by simpa using hk
      have h1 : (k == n') = false := by
        rw [hkn]
        exact beq_eq_false_iff_ne.mpr (fun he => h he.symm)
      rw [if_pos hk, findStore_cons, findStore_cons, if_neg (by simp [h1]), if_neg (by simp [h1])]
      exact ih
    · rw [if_neg hk, findStore_cons, findStore_cons]
      by_cases h2 : (k == n') = true
      · rw [if_pos h2, if_pos h2]
      · rw [if_neg h2, if_neg h2]
        exact ih

theorem findStore_updateStore_self (l : List (String × Store)) (n : String)
    (s s' : Store) (h : findStore l n = some s) :
    findStore (updateStore l n s') n = some s' := by
  induction l with
  | nil => simp [findStore] at h
  | cons p rest ih =>
    obtain ⟨k, s₀⟩ := p
    rw [updateStore_cons]
    by_cases hk : (k == n) = true
    · rw [if_pos hk, findStore_cons, if_pos hk]
    · rw [findStore_cons, if_neg hk] at h
      rw [if_neg hk, findStore_cons, if_neg hk]
      exact ih h

theorem findStore_mapValues (l : List (String × Store)) (n : String)
    (f : Store → Store) :
    findStore (l.map (fun p => (p.1, f p.2))) n = (findStore l n).map f := by
  induction l with
  | nil => rfl
  | cons p rest ih =>
    obtain ⟨k, s⟩ := p
    rw [List.map_cons]
    by_cases hk : (k == n) = true
    · rw [findStore_cons, findStore_cons, if_pos hk, if_pos hk]
      rfl
    · rw [findStore_cons, findStore_cons, if_neg hk, if_neg hk]
      exact ih

theorem hasStore_iff_findStore (m : StateManager) (i : Ident) :
    m.hasStore i = (findStore m.stores i.resolve).isSome := by
  simp [StateManager.hasStore, findStore]

theorem getStore_eq_of_findStore (m : StateManager) (i : Ident) :
    m.getStore i = match findStore m.stores i.resolve with
      | some s => .ok s
      | none => .error (notFoundMsg i.resolve) := by
  simp only [StateManager.getStore, findStore]
  cases m.stores.find? (fun p => p.1 == i.resolve) <;> rfl

theorem updateStore_names (l : List (String × Store)) (n : String) (s' : Store) :
    (updateStore l n s').map Prod.fst = l.map Prod.fst := by
  simp only [updateStore, List.map_map]
  congr 1
  funext p
  by_cases hp : (p.1 == n) = true <;> simp [Function.comp, hp]

theorem store_refresh_ok (s : Store) (v : Val) (hv : s.refreshResult = Except.ok v) :
    s.refresh = Except.ok { s with value := v } := by
  simp [Store.refresh, hv, Except.map]

theorem store_refresh_err (s : Store) (e : String)
    (he : s.refreshResult = Except.error e) :
    s.refresh = Except.error e := by
  simp [Store.refresh, he, Except.map]

theorem store_refreshApplied_ok (s : Store) (v : Val)
    (hv : s.refreshResult = Except.ok v) :
    s.refreshApplied = { s with value := v } := by
  simp [Store.refreshApplied, hv]

theorem refreshSeq_names (l : List (String × Store)) :
    (refreshSeq l).1.map Prod.fst = l.map Prod.fst := by
  induction l with
  | nil => rfl
  | cons p rest ih =>
    obtain ⟨n, s⟩ := p
    cases hr : s.refresh with
    | error e => simp [refreshSeq, hr]
    | ok s' =>
      simp only [refreshSeq, hr, List.map_cons]
      exact congrArg (n :: ·) ih

theorem refreshSeq_ok (l : List (String × Store))
    (h : ∀ p ∈ l, ∃ v, p.2.refreshResult = Except.ok v) :
    refreshSeq l =
      (l.map (fun p => (p.1, p.2.refreshApplied)),
       l.map (fun p => Call.storeRefresh p.1), none) := by
  induction l with
  | nil => rfl
  | cons p rest ih =>
    obtain ⟨n, s⟩ := p
    obtain ⟨v, hv⟩ := h (n, s) (by simp)
    have hv' : s.refreshResult = Except.ok v := hv
    have hih := ih (fun q hq => h q (List.mem_cons_of_mem _ hq))
    simp only [refreshSeq, store_refresh_ok s v hv', hih, List.map_cons]
    simp [store_refreshApplied_ok s v hv']

theorem refreshSeq_fail (pre post : List (String × Store)) (n : String) (s : Store)
    (e : String)
    (hpre : ∀ p ∈ pre, ∃ v, p.2.refreshResult = Except.ok v)
    (hf : s.refreshResult = Except.error e) :
    refreshSeq (pre ++ (n, s) :: post) =
      (pre.map (fun p => (p.1, p.2.refreshApplied)) ++ (n, s) :: post,
       pre.map (fun p => Call.storeRefresh p.1) ++ [Call.storeRefresh n],
       some e) := by
  induction pre with
  | nil =>
    simp [refreshSeq, store_refresh_err s e hf]
  | cons p rest ih =>
    obtain ⟨k, s₀⟩ := p
    obtain ⟨v, hv⟩ := hpre (k, s₀) (by simp)
    have hv' : s₀.refreshResult = Except.ok v := hv
    have hih := ih (fun q hq => hpre q (List.mem_cons_of_mem _ hq))
    rw [List.cons_append]
    simp only [refreshSeq, store_refresh_ok s₀ v hv', hih, List.map_cons]
    simp [store_refreshApplied_ok s₀ v hv']

theorem mapValues_names (l : List (String × Store)) (f : Store → Store) :
    (l.map (fun p => (p.1, f p.2))).map Prod.fst = l.map Prod.fst := by
  simp only [List.map_map]
  congr 1

theorem destroy_fst (m : StateManager) :
    (m.destroy).1 =
      { stores := m.stores.map (fun p => (p.1, p.2.reset)), destroyed := true } := rfl

theorem step_destroyed_inbound (m : StateManager) (a : Act)
    (hd : m.destroyed = true) (ha : a.isInbound = true) :
    step m a = (m, []) := by
  cases a <;> simp [step, hd] <;> simp [Act.isInbound] at ha

theorem runStates_destroyed_inbound (m : StateManager) (acts : List Act)
    (hd : m.destroyed = true) (ha : ∀ a ∈ acts, a.isInbound = true) :
    runStates m acts = List.replicate acts.length m := by
  induction acts with
  | nil => rfl
  | cons a rest ih =>
    have hstep : step m a = (m, []) := step_destroyed_inbound m a hd (ha a (by simp))
    simp only [runStates, hstep, List.length_cons, List.replicate_succ]
    exact congrArg (m :: ·) (ih (fun b hb => ha b (List.mem_cons_of_mem _ hb)))

theorem changesFrom_const (prev : Option Val) (l : List (Option Val))
    (h : ∀ x ∈ l, x = prev) :
    changesFrom prev l = [] := by
  induction l with
  | nil => rfl
  | cons c rest ih =>
    have hc : c = prev := h c (by simp)
    subst hc
    have htail := fun b hb => h b (List.mem_cons_of_mem _ hb)
    cases c <;> simp [changesFrom] <;> exact ih htail

theorem hasStore_mem_names (m : StateManager) (i : Ident)
    (h : m.hasStore i = true) : i.resolve ∈ m.stores.map Prod.fst := by
  simp only [StateManager.hasStore, Option.isSome_iff_exists] at h
  obtain ⟨p, hp⟩ := h
  have hmem := List.mem_of_find?_eq_some hp
  have hpred := List.find?_some hp
  have hkey : p.1 = i.resolve := by simpa using hpred
  exact hkey ▸ List.mem_map_of_mem Prod.fst hmem

theorem set_names (m : StateManager) (n : String) (v : Val) :
    ((m.set n v).1).stores.map Prod.fst = m.stores.map Prod.fst := by
  cases hf : m.stores.find? (fun p => p.1 == n) with
  | none => simp [StateManager.set, hf]
  | some p => simp [StateManager.set, hf, updateStore_names]

theorem refreshName_names (m : StateManager) (n : String) :
    ((m.refreshName n).1).stores.map Prod.fst = m.stores.map Prod.fst := by
  cases hg : m.getStore (Ident.byName n) with
  | error e => simp [StateManager.refreshName, hg]
  | ok s =>
    cases hr : s.refresh with
    | error e => simp [StateManager.refreshName, hg, hr]
    | ok s' => simp [StateManager.refreshName, hg, hr, updateStore_names]

theorem refreshName_log (m : StateManager) (n : String)
    (hreg : m.hasStore (Ident.byName n) = true) :
    (m.refreshName n).2.1 = [Call.storeRefresh n] := by
  cases hf : m.stores.find? (fun p => p.1 == n) with
  | none => simp [StateManager.hasStore, Ident.resolve, hf] at hreg
  | some p =>
    have hg : m.getStore (Ident.byName n) = .ok p.2 := by
      simp [StateManager.getStore, Ident.resolve, hf]
    cases hr : p.2.refresh with
    | error e => simp [StateManager.refreshName, hg, hr]
    | ok s' => simp [StateManager.refreshName, hg, hr]

theorem filter_isRemote_storeReset (l : List (String × Store)) :
    (l.map (fun p => Call.storeReset p.1)).filter (fun c => c.isRemote) = [] := by
  induction l with
  | nil => rfl
  | cons p rest ih => simpa [Call.isRemote] using ih

theorem resetPair_idem :
    (fun p : String × Store => (p.1, p.2.reset)) ∘
      (fun p : String × Store => (p.1, p.2.reset)) =
    (fun p : String × Store => (p.1, p.2.reset)) := by
  funext p
  rfl

/-- C2: for every identifier (plain name or type-level), getStore fails with
the NotFound error naming the missing identifier exactly when the identifier
does not resolve to a registered store; for the same unregistered
identifier, hasStore returns false (it is a total function, so it never
throws), and get, select and refresh(name) fail with the same NotFound
error; on a registered identifier getStore succeeds. -/
theorem C2_notFound_iff_unregistered (m : StateManager) (i : Ident) (u : String)
    (j : Ident) (hi : m.hasStore i = false)
    (hu : m.hasStore (Ident.byName u) = false) (hj : m.hasStore j = true) :
    m.getStore i = .error (notFoundMsg i.resolve)
    ∧ m.get i none = .error (notFoundMsg i.resolve)
    ∧ m.select i none = .error (notFoundMsg i.resolve)
    ∧ (m.refreshName u).2.2 = some (notFoundMsg u)
    ∧ (m.refreshName u).1 = m
    ∧ (m.getStore j).isOk = true := by
  have hfind : m.stores.find? (fun p => p.1 == i.resolve) = none := by
    cases hf : m.stores.find? (fun p => p.1 == i.resolve) with
    | none => rfl
    | some p => simp [StateManager.hasStore, hf] at hi
  have hfindu : m.stores.find? (fun p => p.1 == u) = none := by
    cases hf : m.stores.find? (fun p => p.1 == u) with
    | none => rfl
    | some p => simp [StateManager.hasStore, Ident.resolve, hf] at hu
  have hgu : m.getStore (Ident.byName u) = .error (notFoundMsg u) := by
    simp [StateManager.getStore, Ident.resolve, hfindu]
  refine ⟨?_, ?_, ?_, ?_, ?_, ?_⟩
  · simp [StateManager.getStore, hfind]
  · simp [StateManager.get, StateManager.getStore, hfind, Except.map]
  · simp [StateManager.select, StateManager.getStore, hfind, Except.map]
  · simp [StateManager.refreshName, hgu]
  · simp [StateManager.refreshName, hgu]
  · cases hf : m.stores.find? (fun p => p.1 == j.resolve) with
    | none => simp [StateManager.hasStore, hf] at hj
    | some p => simp [StateManager.getStore, hf, Except.isOk, Except.toBool]

/-- C2 witness: a concrete manager, one unregistered name, one unregistered
type-level identifier, and one registered type-level identifier. -/
theorem C2_notFound_witness :
    mgrVP.hasStore (Ident.byType "gain") = false
    ∧ mgrVP.hasStore (Ident.byName "gain") = false
    ∧ mgrVP.hasStore (Ident.byType "volume") = true
    ∧ (mgrVP.getStore (Ident.byType "gain") = .error (notFoundMsg "gain")
       ∧ mgrVP.get (Ident.byType "gain") none = .error (notFoundMsg "gain")
       ∧ mgrVP.select (Ident.byType "gain") none = .error (notFoundMsg "gain")
       ∧ (mgrVP.refreshName "gain").2.2 = some (notFoundMsg "gain")
       ∧ (mgrVP.refreshName "gain").1 = mgrVP
       ∧ (mgrVP.getStore (Ident.byType "volume")).isOk = true) :=
  ⟨by decide, by decide, by decide,
   C2_notFound_iff_unregistered mgrVP (Ident.byType "gain") "gain"
     (Ident.byType "volume") (by decide) (by decide) (by decide)⟩

/-- C6: an inbound entity-changed event whose name matches a registered
store triggers exactly that store's refresh (one store-refresh invocation,
on that store, and nothing else: in particular no direct set on any
store). -/
theorem C6_entity_refreshes_one (m : StateManager) (n : String)
    (hact : m.destroyed = false) (hreg : m.hasStore (Ident.byName n) = true) :
    (step m (Act.evEntity n)).2 = [Call.storeRefresh n] := by
  simp only [step, hact, Bool.false_eq_true, if_false, hreg, if_true]
  exact refreshName_log m n hreg

/-- C6 witness: the entity event for the registered playback store. -/
theorem C6_entity_witness :
    mgrVP.destroyed = false
    ∧ mgrVP.hasStore (Ident.byName "playback") = true
    ∧ (step mgrVP (Act.evEntity "playback")).2 = [Call.storeRefresh "playback"] :=
  ⟨by decide, by decide, C6_entity_refreshes_one mgrVP "playback" (by decide) (by decide)⟩

/-- C7: for every pre-state and every registered name, refresh(name)
leaves the value of every other registered store unchanged. -/
theorem C7_refresh_name_frame (m : StateManager) (n n' : String)
    (hreg : m.hasStore (Ident.byName n) = true) (hne : n' ≠ n) :
    valueOf (m.refreshName n).1 n' = valueOf m n' := by
  cases hf : m.stores.find? (fun p => p.1 == n) with
  | none => simp [StateManager.hasStore, Ident.resolve, hf] at hreg
  | some p =>
    have hg : m.getStore (Ident.byName n) = .ok p.2 := by
      simp [StateManager.getStore, Ident.resolve, hf]
    cases hr : p.2.refresh with
    | error e => simp [StateManager.refreshName, hg, hr]
    | ok s' =>
      simp only [StateManager.refreshName, hg, hr]
      rw [valueOf_eq_findStore, valueOf_eq_findStore]
      exact congrArg (Option.map (fun s => s.value))
        (findStore_updateStore_ne m.stores n n' s' hne)

/-- C7 witness: refreshing the volume store leaves playback untouched. -/
theorem C7_refresh_name_witness :
    mgrVP.hasStore (Ident.byName "volume") = true
    ∧ ("playback" : String) ≠ "volume"
    ∧ valueOf (mgrVP.refreshName "volume").1 "playback" = valueOf mgrVP "playback" :=
  ⟨by decide, by decide,
   C7_refresh_name_frame mgrVP "volume" "playback" (by decide) (by decide)⟩

/-- C8: reset synchronously resets every registered store to its default
(as a total function it always succeeds and raises no error), performs no
remote interaction (its interaction log contains no store-refresh), and is
idempotent: a second reset leaves the state of the first. -/
theorem C8_reset_no_network_idempotent (m : StateManager) :
    (m.reset).1.stores = m.stores.map (fun p => (p.1, p.2.reset))
    ∧ (m.reset).2.filter (fun c => c.isRemote) = []
    ∧ ((m.reset).1.reset).1 = (m.reset).1 := by
  refine ⟨rfl, filter_isRemote_storeReset m.stores, ?_⟩
  · simp only [StateManager.reset, List.map_map, resetPair_idem]

/-- C9: the set of registered store names is fixed: no public mutating
operation and no routed inbound event ever adds or removes a store; the
read-only operations (getStore, hasStore, get, select) return values
without producing a successor state at all. -/
theorem C9_registry_names_fixed (m : StateManager) (a : Act) :
    (step m a).1.stores.map Prod.fst = m.stores.map Prod.fst := by
  cases a with
  | evConnect =>
    by_cases hd : m.destroyed <;>
      simp [step, hd, StateManager.refreshAll, refreshSeq_names]
  | evState n v =>
    by_cases hd : m.destroyed
    · simp [step, hd]
    · by_cases hs : m.hasStore (Ident.byName n) <;> simp [step, hd, hs, set_names]
  | evReset n v =>
    by_cases hd : m.destroyed
    · simp [step, hd]
    · by_cases hs : m.hasStore (Ident.byName n) <;> simp [step, hd, hs, set_names]
  | evEntity n =>
    by_cases hd : m.destroyed
    · simp [step, hd]
    · by_cases hs : m.hasStore (Ident.byName n) <;> simp [step, hd, hs, refreshName_names]
  | callRefreshAll => simp [step, StateManager.refreshAll, refreshSeq_names]
  | callRefreshName n => simp [step, refreshName_names]
  | callReset => simp [step, StateManager.reset, mapValues_names]
  | callDestroy => simp [step, StateManager.destroy, StateManager.reset, mapValues_names]

/-- C10: destroy is idempotent on the manager state: a second destroy
resets all stores again, restoring the same defaults, and re-emitting and
re-completing the already-completed cancellation signal changes nothing,
so the state after two destroys equals the state after one; the second
call raises no error (destroy is a total function) and its interactions
are exactly one reset per store. -/
theorem C10_destroy_idempotent (m : StateManager) :
    ((m.destroy).1.destroy).1 = (m.destroy).1
    ∧ ((m.destroy).1.destroy).2 =
        (m.destroy).1.stores.map (fun p => Call.storeReset p.1) := by
  refine ⟨?_, rfl⟩
  simp only [StateManager.destroy, StateManager.reset, List.map_map, resetPair_idem]

theorem isOk_exists {s : Store} (h : s.refreshResult.isOk = true) :
    ∃ v, s.refreshResult = Except.ok v := by
  cases hc : s.refreshResult with
  | ok v => exact ⟨v, rfl⟩
  | error e => rw [hc] at h; simp [Except.isOk, Except.toBool] at h

/-- C3: bulk refresh awaits every store strictly one at a time in registry
order: with every store before the failing one succeeding, the performed
interactions are exactly one refresh per store up to and including the
failing one, in registry order; the failure propagates unchanged to the
caller (no retry, no suppression), the stores before the failing one are
refreshed and the failing store and every store after it are untouched;
refresh(name) likewise propagates a store failure unchanged, with no state
change. -/
theorem C3_refresh_sequential_failure (m : StateManager)
    (pre post : List (String × Store)) (n : String) (s : Store) (e : String)
    (nm : String) (sf : Store) (e2 : String)
    (hsplit : m.stores = pre ++ (n, s) :: post)
    (hpre : ∀ p ∈ pre, p.2.refreshResult.isOk = true)
    (hfail : s.refreshResult = Except.error e)
    (hnm : m.getStore (Ident.byName nm) = .ok sf)
    (hsf : sf.refreshResult = Except.error e2) :
    (m.refreshAll).2.2 = some e
    ∧ (m.refreshAll).2.1 =
        pre.map (fun p => Call.storeRefresh p.1) ++ [Call.storeRefresh n]
    ∧ (m.refreshAll).1.stores =
        pre.map (fun p => (p.1, p.2.refreshApplied)) ++ (n, s) :: post
    ∧ (m.refreshName nm).2.2 = some e2
    ∧ (m.refreshName nm).1 = m := by
  have hpre' : ∀ p ∈ pre, ∃ v, p.2.refreshResult = Except.ok v :=
    fun p hp => isOk_exists (hpre p hp)
  have hseq := refreshSeq_fail pre post n s e hpre' hfail
  have hr : sf.refresh = Except.error e2 := store_refresh_err sf e2 hsf
  refine ⟨?_, ?_, ?_, ?_, ?_⟩
  · simp [StateManager.refreshAll, hsplit, hseq]
  · simp [StateManager.refreshAll, hsplit, hseq]
  · simp [StateManager.refreshAll, hsplit, hseq]
  · simp [StateManager.refreshName, hnm, hr]
  · simp [StateManager.refreshName, hnm, hr]

/-- C3 witness: a three-store registry whose middle store fails. -/
theorem C3_refresh_sequential_witness :
    mgrVFP.stores =
      [("volume", storeVolume)] ++ ("fail", storeFailing) :: [("playback", storePlayback)]
    ∧ ([("volume", storeVolume)].all (fun p => p.2.refreshResult.isOk)) = true
    ∧ storeFailing.refreshResult = Except.error "network down"
    ∧ mgrVFP.getStore (Ident.byName "fail") = .ok storeFailing
    ∧ ((mgrVFP.refreshAll).2.2 = some "network down"
       ∧ (mgrVFP.refreshAll).2.1 =
           [("volume", storeVolume)].map (fun p => Call.storeRefresh p.1)
             ++ [Call.storeRefresh "fail"]
       ∧ (mgrVFP.refreshAll).1.stores =
           [("volume", storeVolume)].map (fun p => (p.1, p.2.refreshApplied))
             ++ ("fail", storeFailing) :: [("playback", storePlayback)]
       ∧ (mgrVFP.refreshName "fail").2.2 = some "network down"
       ∧ (mgrVFP.refreshName "fail").1 = mgrVFP) :=
  ⟨by decide, by decide, by decide, by decide,
   C3_refresh_sequential_failure mgrVFP [("volume", storeVolume)]
     [("playback", storePlayback)] "fail" storeFailing "network down"
     "fail" storeFailing "network down"
     (by decide) (by decide) (by decide) (by decide) (by decide)⟩

/-- C4: an inbound state-delta event for a registered name makes get(name)
return the carried state and leaves every other store's value unchanged;
a state-delta or reset event naming an unregistered store leaves the
manager unchanged, performs no store interaction and raises no error (the
handler is a total function). -/
theorem C4_state_delta_routing (m : StateManager) (n n' u : String) (v w : Val)
    (hact : m.destroyed = false) (hreg : m.hasStore (Ident.byName n) = true)
    (hne : n' ≠ n) (hu : m.hasStore (Ident.byName u) = false) :
    (step m (Act.evState n v)).1.get (Ident.byName n) none = .ok v
    ∧ valueOf (step m (Act.evState n v)).1 n' = valueOf m n'
    ∧ step m (Act.evState u w) = (m, [])
    ∧ step m (Act.evReset u w) = (m, []) := by
  have hp : ∃ p, m.stores.find? (fun q => q.1 == n) = some p := by
    simpa [StateManager.hasStore, Ident.resolve, Option.isSome_iff_exists] using hreg
  obtain ⟨p, hfindp⟩ := hp
  have hstep : step m (Act.evState n v) =
      ({ m with stores := updateStore m.stores n (p.2.set v) }, [Call.storeSet n v]) := by
    simp [step, hact, hreg, StateManager.set, hfindp]
  have hfs : findStore m.stores n = some p.2 := by simp [findStore, hfindp]
  refine ⟨?_, ?_, ?_, ?_⟩
  · rw [hstep]
    have hupd := findStore_updateStore_self m.stores n p.2 (p.2.set v) hfs
    rw [StateManager.get, getStore_eq_of_findStore]
    simp only [Ident.resolve]
    rw [hupd]
    simp [Except.map, Store.get, Store.set]
  · rw [hstep, valueOf_eq_findStore, valueOf_eq_findStore]
    exact congrArg (Option.map (fun s => s.value))
      (findStore_updateStore_ne m.stores n n' (p.2.set v) hne)
  · simp [step, hact, hu]
  · simp [step, hact, hu]

/-- C4 witness: the two-store registry of the specification example. -/
theorem C4_state_delta_witness :
    mgrVP.destroyed = false
    ∧ mgrVP.hasStore (Ident.byName "volume") = true
    ∧ ("playback" : String) ≠ "volume"
    ∧ mgrVP.hasStore (Ident.byName "unknown") = false
    ∧ ((step mgrVP (Act.evState "volume" (Val.int 80))).1.get
         (Ident.byName "volume") none = .ok (Val.int 80)
       ∧ valueOf (step mgrVP (Act.evState "volume" (Val.int 80))).1 "playback" =
           valueOf mgrVP "playback"
       ∧ step mgrVP (Act.evState "unknown" (Val.int 1)) = (mgrVP, [])
       ∧ step mgrVP (Act.evReset "unknown" (Val.int 1)) = (mgrVP, [])) :=
  ⟨by decide, by decide, by decide, by decide,
   C4_state_delta_routing mgrVP "volume" "playback" "unknown" (Val.int 80) (Val.int 1)
     (by decide) (by decide) (by decide) (by decide)⟩

theorem filter_isSet_storeRefresh (l : List String) :
    (l.map Call.storeRefresh).filter (fun c => c.isSet) = [] := by
  induction l with
  | nil => rfl
  | cons a rest ih =>
    rw [List.map_cons, List.filter_cons_of_neg (by simp [Call.isSet])]
    exact ih

/-- C5: an inbound connect event performs the bulk refresh and nothing
else: when every store's refresh succeeds, the interactions are exactly one
store-refresh per registered store, in registry order, and zero direct set
calls on any store; registered names being unique, each registered name is
refreshed exactly once. -/
theorem C5_connect_refreshes_all (m : StateManager) (n : String)
    (hact : m.destroyed = false)
    (hok : ∀ p ∈ m.stores, p.2.refreshResult.isOk = true)
    (hnd : (m.stores.map Prod.fst).Nodup)
    (hreg : m.hasStore (Ident.byName n) = true) :
    (step m Act.evConnect).2 = m.stores.map (fun p => Call.storeRefresh p.1)
    ∧ (step m Act.evConnect).2.count (Call.storeRefresh n) = 1
    ∧ (step m Act.evConnect).2.filter (fun c => c.isSet) = [] := by
  have hok' : ∀ p ∈ m.stores, ∃ v, p.2.refreshResult = Except.ok v :=
    fun p hp => isOk_exists (hok p hp)
  have hseq := refreshSeq_ok m.stores hok'
  have hlog : (step m Act.evConnect).2 = m.stores.map (fun p => Call.storeRefresh p.1) := by
    simp [step, hact, StateManager.refreshAll, hseq]
  have hmaps : m.stores.map (fun p => Call.storeRefresh p.1) =
      (m.stores.map Prod.fst).map Call.storeRefresh := by
    simp [List.map_map]
  refine ⟨hlog, ?_, ?_⟩
  · rw [hlog, hmaps]
    have hmem : n ∈ m.stores.map Prod.fst := hasStore_mem_names m (Ident.byName n) hreg
    have hinj : Function.Injective Call.storeRefresh := fun a b h => by
      injection h
    rw [List.count_map_of_injective _ _ hinj]
    exact List.count_eq_one_of_mem hnd hmem
  · rw [hlog, hmaps]
    exact filter_isSet_storeRefresh (m.stores.map Prod.fst)

/-- C5 witness: the connect event on the healthy two-store registry. -/
theorem C5_connect_witness :
    mgrVP.destroyed = false
    ∧ (mgrVP.stores.all (fun p => p.2.refreshResult.isOk)) = true
    ∧ (mgrVP.stores.map Prod.fst).Nodup
    ∧ mgrVP.hasStore (Ident.byName "volume") = true
    ∧ ((step mgrVP Act.evConnect).2 =
         mgrVP.stores.map (fun p => Call.storeRefresh p.1)
       ∧ (step mgrVP Act.evConnect).2.count (Call.storeRefresh "volume") = 1
       ∧ (step mgrVP Act.evConnect).2.filter (fun c => c.isSet) = []) :=
  ⟨by decide, by decide, by decide, by decide,
   C5_connect_refreshes_all mgrVP "volume" (by decide) (by decide) (by decide) (by decide)⟩

/-- C1 counterexample: on the concrete single-store manager, a subscription
obtained from select before destroy is still live after destroy has run and
emits a further value (here after a post-destroy public refresh call
mutates the store): destroy does not tear down select subscriptions via the
shared cancellation signal, because select returns the store stream without
piping it through that signal. -/
theorem C1_select_survives_destroy_cex :
    mgrA.select (Ident.byName "a") none = .ok ⟨"a", none⟩
    ∧ postDestroyEmissions ⟨"a", none⟩ mgrA [] [Act.callRefreshName "a"] ≠ [] := by
  constructor
  · decide
  · decide

/-- C1 (amended): after destroy has run, a subscription created before the
call receives no further value as long as only inbound events occur
afterwards: destroy tears down, via the shared cancellation signal, the
four event subscriptions created at initialization, and those are the only
automatic sources of store mutation; the select stream itself is not
attached to the shared signal and simply receives nothing more. -/
theorem C1_select_silent_after_destroy (sel : Selection) (m : StateManager)
    (pre post : List Act) (hpost : ∀ a ∈ post, a.isInbound = true) :
    postDestroyEmissions sel m pre post = [] := by
  have hd : (runEnd m (pre ++ [Act.callDestroy])).destroyed = true := by
    rw [runEnd, List.foldl_append]
    rfl
  rw [postDestroyEmissions, selEmissions,
    runStates_destroyed_inbound _ post hd hpost, List.map_replicate]
  exact changesFrom_const _ _ (fun x hx => List.eq_of_mem_replicate hx)

/-- C1 witness: a subscription created before destroy observes nothing over
a post-destroy segment consisting only of inbound events. -/
theorem C1_select_silent_witness :
    ([Act.evState "a" (Val.int 5), Act.evConnect,
      Act.evEntity "a"].all (fun a => a.isInbound)) = true
    ∧ postDestroyEmissions ⟨"a", none⟩ mgrA [Act.callRefreshName "a"]
        [Act.evState "a" (Val.int 5), Act.evConnect, Act.evEntity "a"] = [] :=
  ⟨by decide,
   C1_select_silent_after_destroy ⟨"a", none⟩ mgrA [Act.callRefreshName "a"]
     [Act.evState "a" (Val.int 5), Act.evConnect, Act.evEntity "a"] (by decide)⟩

end XpressCue
